import Mathlib

/-!
Verification of the failure-location and graph-grafting core of
`gotostate.py` (resume an AWS Step Functions execution from the failed
state).  The Python source is shallowly embedded: every function below is a
direct translation of the corresponding Python code, with Python runtime
errors (KeyError, IndexError, ValueError) made explicit in an error type,
and the unbounded `while` loop of `parse_failure_history` rendered as a
fuel-indexed recursion whose fuel bound is large enough that exhaustion
coincides exactly with divergence of the Python loop (the loop state is a
pair of a boolean flag and a cursor in `0..length`, so any terminating run
takes at most `2 * length + 1` iterations).
-/

/-- `stateEnteredEventDetails` of a `*StateEntered` history event. -/
structure StateEnteredDetails where
  name : String
  input : String
deriving DecidableEq, Repr

/-- `executionFailedEventDetails` of the `ExecutionFailed` history event. -/
structure ExecutionFailedDetails where
  error : String
  cause : String
deriving DecidableEq, Repr

/-- One entry of an execution's event history.  Fields that Python reads as
dictionary keys which may be absent are `Option`s; reading an absent one is a
KeyError. -/
structure Event where
  id : Nat
  type : String
  previousEventId : Nat
  stateEnteredEventDetails : Option StateEnteredDetails
  executionFailedEventDetails : Option ExecutionFailedDetails
deriving DecidableEq, Repr

/-- The ways the embedded Python code can fail to produce a value. -/
inductive PyErr where
  /-- the `Execution did not fail` exception raised when the first event has
  no `executionFailedEventDetails` (or the log is empty) -/
  | notFailedExecution
  /-- a Python KeyError: a dictionary key that the code reads is absent -/
  | keyError
  /-- a Python IndexError: a list index out of range -/
  | indexError
  /-- a Python ValueError: `int()` applied to a string with no digits -/
  | valueError
  /-- marker for divergence of the `while` loop (the fuel bound used in
  `parse_failure_history` is reached only by non-terminating runs) -/
  | fuelExhausted
deriving DecidableEq, Repr

/-- Split a character list at every separator character (Python
`str.split(sep)` semantics: empty groups are kept). -/
def splitWhen (p : Char → Bool) : List Char → List (List Char)
  | [] => [[]]
  | c :: cs =>
    if p c then [] :: splitWhen p cs
    else
      match splitWhen p cs with
      | [] => [[c]]
      | g :: gs => (c :: g) :: gs

/-- Python `s.split()` (no separator): split on whitespace runs, dropping
empty groups. -/
def pySplitWs (s : String) : List String :=
  ((splitWhen Char.isWhitespace s.toList).filter (fun g => !g.isEmpty)).map String.mk

/-- Python `s.split(':')`: split at every colon, keeping empty groups. -/
def pySplitColon (s : String) : List String :=
  (splitWhen (fun c => c = ':') s.toList).map String.mk

/-- Python `':'.join(l)`. -/
def joinColon : List String → String
  | [] => ""
  | [s] => s
  | s :: rest => s ++ ":" ++ joinColon rest

/-- Python 2 `int(filter(str.isdigit, tok))`: keep the digit characters of
`tok` in order and read them as a decimal numeral; ValueError (here `none`)
when no digit occurs. -/
def intOfDigits (tok : String) : Option Nat :=
  match tok.toList.filter Char.isDigit with
  | [] => none
  | ds => some (ds.foldl (fun n c => 10 * n + (c.toNat - 48)) 0)

/-- Python `l[-1 * k]` for a natural `k`: for `k ≥ 1` this is the element at
position `length - k` (IndexError when `k > length`); `-1 * 0` is `0`, the
first element. -/
def pyNegIdx (l : List Event) (k : Nat) : Option Event :=
  if k = 0 then l[0]?
  else if k ≤ l.length then l[l.length - k]? else none

/-- The update of `failed_at_parallel_state` performed at the top of each
loop iteration: it becomes true when a `ParallelStateFailed` event is seen
and is never cleared. -/
def nextFlag (flag : Bool) (ev : Event) : Bool :=
  if ev.type = "ParallelStateFailed" then true else flag

/-- The `while current_event_id != 0` loop of `parse_failure_history`,
with explicit fuel.  `Except.ok (some (name, input))` is a `return` of the
failed state's name and input; `Except.ok none` is the implicit `return
None` when the loop exits at cursor `0`. -/
def walk (events : List Event) : Nat → Bool → Nat → Except PyErr (Option (String × String))
  | 0, _, _ => Except.error PyErr.fuelExhausted
  | fuel + 1, flag, cur =>
    if cur = 0 then Except.ok none
    else
      match pyNegIdx events cur with
      | none => Except.error PyErr.indexError
      | some ev =>
        if ev.type = "TaskStateEntered" ∧ nextFlag flag ev = false then
          match ev.stateEnteredEventDetails with
          | none => Except.error PyErr.keyError
          | some d => Except.ok (some (d.name, d.input))
        else if ev.type = "ParallelStateEntered" ∧ nextFlag flag ev = true then
          match ev.stateEnteredEventDetails with
          | none => Except.error PyErr.keyError
          | some d => Except.ok (some (d.name, d.input))
        else
          walk events fuel (nextFlag flag ev) ev.previousEventId

/-- `parse_failure_history`, applied to the already-assembled
reverse-chronological event list (the paginated retrieval of that list from
the service is out of scope).  Faithful to the Python control flow:
check `failed_events[0]['executionFailedEventDetails']`, take the
`States.Runtime` fast path when the error code matches, otherwise run the
backward walk starting at the first event's own `id`. -/
def parse_failure_history (failed_events : List Event) : Except PyErr (Option (String × String)) :=
  match failed_events.head? with
  | none => Except.error PyErr.notFailedExecution
  | some e0 =>
    match e0.executionFailedEventDetails with
    | none => Except.error PyErr.notFailedExecution
    | some fd =>
      if fd.error = "States.Runtime" then
        match (pySplitWs fd.cause)[13]? with
        | none => Except.error PyErr.indexError
        | some tok =>
          match intOfDigits tok with
          | none => Except.error PyErr.valueError
          | some k =>
            match pyNegIdx failed_events k with
            | none => Except.error PyErr.indexError
            | some ev =>
              match ev.stateEnteredEventDetails with
              | none => Except.error PyErr.keyError
              | some d => Except.ok (some (d.name, d.input))
      else
        walk failed_events (2 * failed_events.length + 2) false e0.id

/-- `sm_arn_from_execution_arn`: drop the last colon-separated segment and
overwrite segment 5 with `stateMachine` (`none` is the IndexError raised by
`sm_arn[5] = ...` when fewer than six segments remain). -/
def sm_arn_from_execution_arn (arn : String) : Option String :=
  if 5 < ((pySplitColon arn).dropLast).length then
    some (joinColon (((pySplitColon arn).dropLast).set 5 "stateMachine"))
  else none

/-- One element of the `Choices` array of an Amazon States Language Choice
state, of the shape built by `attach_go_to_state`. -/
structure ChoiceRule where
  Variable : String
  BooleanEquals : Bool
  Next : String
deriving DecidableEq, Repr

/-- A state record of a workflow definition.  `attach_go_to_state` treats
every existing state as a black box and only ever builds a Choice state, so
states are either a Choice record or an otherwise-opaque body. -/
inductive StateRecord where
  | choiceState (Choices : List ChoiceRule) (Default : String)
  | otherState (body : String)
deriving DecidableEq, Repr

/-- The parsed workflow definition JSON: a `StartAt` pointer, the `States`
object (an ordered key-value mapping, as a Python dict is), and the
remaining top-level keys of the definition, which the code never touches,
kept as one opaque component. -/
structure StateMachine where
  startAt : String
  states : List (String × StateRecord)
  rest : String
deriving DecidableEq, Repr

/-- Python dict assignment `m[k] = v`: replace the value in place when the
key is present, otherwise append a new entry. -/
def dictInsert (m : List (String × StateRecord)) (k : String) (v : StateRecord) :
    List (String × StateRecord) :=
  if (m.lookup k).isSome then
    m.map (fun p => if p.1 = k then (k, v) else p)
  else m ++ [(k, v)]

/-- The `go_to_state` Choice record built by `attach_go_to_state`:
one choice `Variable $.resuming, BooleanEquals false, Next original_start_at`
and `Default failed_state_name`. -/
def go_to_state (original_start_at failed_state_name : String) : StateRecord :=
  StateRecord.choiceState
    [{ Variable := "$.resuming", BooleanEquals := false, Next := original_start_at }]
    failed_state_name

/-- The pure graph rewrite performed by `attach_go_to_state` on the parsed
definition (fetching the definition and publishing the result are out of
scope): read the original `StartAt`, add the `go_to_state` record under the
key `GoToState`, and repoint `StartAt` at it. -/
def attach_go_to_state (failed_state_name : String) (state_machine : StateMachine) :
    StateMachine :=
  { state_machine with
    states := dictInsert state_machine.states "GoToState"
      (go_to_state state_machine.startAt failed_state_name)
    startAt := "GoToState" }

/-- Modelled from the spec: the workflow service's runtime dispatch of a
Choice state (the Amazon States Language interpreter is not part of this
repository).  The execution input is abstracted as a partial map from field
paths to boolean values; the first rule whose `BooleanEquals` test matches
the input's value at its `Variable` path selects its `Next` state, and when
no rule matches — including when the tested field is absent — the `Default`
state is selected. -/
def choiceNext (rules : List ChoiceRule) (dflt : String) (input : String → Option Bool) :
    String :=
  match rules.find? (fun r => input r.Variable == some r.BooleanEquals) with
  | some r => r.Next
  | none => dflt

/-- `choiceNext` lifted to a state record: only Choice states dispatch. -/
def choiceStateNext (s : StateRecord) (input : String → Option Bool) : Option String :=
  match s with
  | StateRecord.choiceState rules dflt => some (choiceNext rules dflt input)
  | StateRecord.otherState _ => none

/-- The supplied log is reverse-chronological with dense ids: the event at
array position `i` has id `length - i` (so ids run from `length` down to
`1`, and `failed_events[-1 * k]` is exactly the event with id `k`). -/
def wellPlaced (events : List Event) : Prop :=
  ∀ (i : Nat) (h : i < events.length), (events[i]).id = events.length - i

instance (events : List Event) : Decidable (wellPlaced events) :=
  Nat.decidableBallLT events.length _

/-- Every event's `previousEventId` is strictly smaller than its own id. -/
def prevLtId (events : List Event) : Prop :=
  ∀ e ∈ events, e.previousEventId < e.id

instance (events : List Event) : Decidable (prevLtId events) :=
  List.decidableBAll _ events

/-- Data-model invariant: `executionFailedEventDetails` is carried only by
`ExecutionFailed` events. -/
def detailsOnlyOnFailed (events : List Event) : Prop :=
  ∀ e ∈ events, e.type ≠ "ExecutionFailed" → e.executionFailedEventDetails = none

instance (events : List Event) : Decidable (detailsOnlyOnFailed events) :=
  List.decidableBAll _ events

/-- The predecessor chain starting at cursor `cur` reaches, before any
`ParallelStateFailed` event, a `TaskStateEntered` event whose entered-state
details are `d`: the "chronologically nearest `TaskStateEntered` preceding
the failure" of a flat single-task failure. -/
inductive FirstTSE (events : List Event) : Nat → StateEnteredDetails → Prop where
  | hit (cur : Nat) (ev : Event) (d : StateEnteredDetails)
      (h0 : cur ≠ 0) (hev : pyNegIdx events cur = some ev)
      (htype : ev.type = "TaskStateEntered")
      (hd : ev.stateEnteredEventDetails = some d) :
      FirstTSE events cur d
  | skip (cur : Nat) (ev : Event) (d : StateEnteredDetails)
      (h0 : cur ≠ 0) (hev : pyNegIdx events cur = some ev)
      (hTSE : ev.type ≠ "TaskStateEntered")
      (hPSF : ev.type ≠ "ParallelStateFailed")
      (hrec : FirstTSE events ev.previousEventId d) :
      FirstTSE events cur d

/-- After a `ParallelStateFailed` has been seen, the chain from `cur`
reaches a `ParallelStateEntered` event with details `d`; any number of
inner-branch events (in particular inner `TaskStateEntered` events) may lie
in between. -/
inductive ParallelPSE (events : List Event) : Nat → StateEnteredDetails → Prop where
  | hit (cur : Nat) (ev : Event) (d : StateEnteredDetails)
      (h0 : cur ≠ 0) (hev : pyNegIdx events cur = some ev)
      (htype : ev.type = "ParallelStateEntered")
      (hd : ev.stateEnteredEventDetails = some d) :
      ParallelPSE events cur d
  | skip (cur : Nat) (ev : Event) (d : StateEnteredDetails)
      (h0 : cur ≠ 0) (hev : pyNegIdx events cur = some ev)
      (htype : ev.type ≠ "ParallelStateEntered")
      (hrec : ParallelPSE events ev.previousEventId d) :
      ParallelPSE events cur d

/-- The chain from `cur` reaches a `ParallelStateFailed` event before any
`TaskStateEntered` event, and from there the enclosing
`ParallelStateEntered` event carries details `d`: a failure inside a
parallel branch. -/
inductive FailedParallel (events : List Event) : Nat → StateEnteredDetails → Prop where
  | found (cur : Nat) (ev : Event) (d : StateEnteredDetails)
      (h0 : cur ≠ 0) (hev : pyNegIdx events cur = some ev)
      (htype : ev.type = "ParallelStateFailed")
      (hrec : ParallelPSE events ev.previousEventId d) :
      FailedParallel events cur d
  | skip (cur : Nat) (ev : Event) (d : StateEnteredDetails)
      (h0 : cur ≠ 0) (hev : pyNegIdx events cur = some ev)
      (hPSF : ev.type ≠ "ParallelStateFailed")
      (hTSE : ev.type ≠ "TaskStateEntered")
      (hrec : FailedParallel events ev.previousEventId d) :
      FailedParallel events cur d

/-- The walk from cursor `cur` with flag `flag` reaches cursor `0` without
ever satisfying one of the two return conditions of the loop body. -/
inductive ReachesZero (events : List Event) : Bool → Nat → Prop where
  | done (flag : Bool) : ReachesZero events flag 0
  | step (flag : Bool) (cur : Nat) (ev : Event) (flag1 : Bool)
      (h0 : cur ≠ 0) (hev : pyNegIdx events cur = some ev)
      (hflag : flag1 = nextFlag flag ev)
      (hTSE : ¬(ev.type = "TaskStateEntered" ∧ flag1 = false))
      (hPSE : ¬(ev.type = "ParallelStateEntered" ∧ flag1 = true))
      (hrec : ReachesZero events flag1 ev.previousEventId) :
      ReachesZero events flag cur

/-- The spec's end-to-end flat-failure example log: ids 4 → 3 → 2 → 1 → 0,
most recent first, the failure preceded by `Validate` with input
`\x7b"x": 1\x7d`. -/
def c1Log : List Event :=
  [ ⟨4, "ExecutionFailed", 3, none, some ⟨"States.TaskFailed", "boom"⟩⟩,
    ⟨3, "TaskStateEntered", 2, some ⟨"Validate", "\x7b\"x\": 1\x7d"⟩, none⟩,
    ⟨2, "TaskStateEntered", 1, some ⟨"Fetch", "\x7b\x7d"⟩, none⟩,
    ⟨1, "TaskStateEntered", 0, some ⟨"Start", "\x7b\x7d"⟩, none⟩ ]

/-- A failure inside a parallel branch: two inner `TaskStateEntered`
events lie between the `ParallelStateFailed` event and the enclosing
`ParallelStateEntered` event named `Par`. -/
def c2Log : List Event :=
  [ ⟨6, "ExecutionFailed", 5, none, some ⟨"States.TaskFailed", "boom"⟩⟩,
    ⟨5, "ParallelStateFailed", 4, none, none⟩,
    ⟨4, "TaskStateEntered", 3, some ⟨"InnerB", "ib"⟩, none⟩,
    ⟨3, "TaskStateEntered", 2, some ⟨"InnerA", "ia"⟩, none⟩,
    ⟨2, "ParallelStateEntered", 1, some ⟨"Par", "pin"⟩, none⟩,
    ⟨1, "TaskStateEntered", 0, some ⟨"Start", "si"⟩, none⟩ ]

/-- A log whose walk reaches id 0 with no match: the only event between the
failure and the start is of a type the traversal has no case for. -/
def c3Log : List Event :=
  [ ⟨2, "ExecutionFailed", 1, none, some ⟨"States.TaskFailed", "boom"⟩⟩,
    ⟨1, "PassStateExited", 0, none, none⟩ ]

/-- A `States.Runtime` failure whose cause's 14th whitespace-separated token
carries the digit `1`, pointing at the log's event with id 1. -/
def c5Log : List Event :=
  [ ⟨2, "ExecutionFailed", 1, none,
      some ⟨"States.Runtime",
        "An error occurred while executing the state whose processed event id is w1 1. extra"⟩⟩,
    ⟨1, "TaskStateEntered", 0, some ⟨"CrossRegionCall", "in1"⟩, none⟩ ]

/-- A log whose first (most recent) event is not an `ExecutionFailed`
event. -/
def c8Log : List Event :=
  [ ⟨2, "ExecutionSucceeded", 1, none, none⟩,
    ⟨1, "TaskStateEntered", 0, some ⟨"Start", "si"⟩, none⟩ ]

/-- Every event's `previousEventId` is below its own id, yet the walk
diverges: the event stored at reverse position 2 has id 9, so the cursor
sticks at 2 forever.  (The ids are not densely placed.) -/
def c10Log : List Event :=
  [ ⟨3, "ExecutionFailed", 2, none, some ⟨"States.TaskFailed", "boom"⟩⟩,
    ⟨9, "LambdaFunctionScheduled", 2, none, none⟩,
    ⟨1, "TaskStateEntered", 0, some ⟨"Start", "si"⟩, none⟩ ]

/-- The spec's grafting example definition: two opaque states `A` and `B`,
starting at `A`. -/
def exMachine : StateMachine :=
  ⟨"A", [("A", StateRecord.otherState "Abody"), ("B", StateRecord.otherState "Bbody")], "meta"⟩

/-- A one-state definition used to exercise repeated grafting. -/
def c4Machine : StateMachine :=
  ⟨"A", [("A", StateRecord.otherState "Abody")], "meta"⟩

/-! ## Helper lemmas -/

theorem walk_succ_skip {events : List Event} {fuel : Nat} {flag : Bool} {cur : Nat} {ev : Event}
    (h0 : cur ≠ 0) (hev : pyNegIdx events cur = some ev)
    (hc1 : ¬(ev.type = "TaskStateEntered" ∧ nextFlag flag ev = false))
    (hc2 : ¬(ev.type = "ParallelStateEntered" ∧ nextFlag flag ev = true)) :
    walk events (fuel + 1) flag cur =
      walk events fuel (nextFlag flag ev) ev.previousEventId := by
  simp only [walk, if_neg h0, hev, if_neg hc1, if_neg hc2]

theorem pyNegIdx_mem {events : List Event} {cur : Nat} {ev : Event}
    (h : pyNegIdx events cur = some ev) : ev ∈ events := by
  unfold pyNegIdx at h
  split at h
  · exact List.getElem?_mem h
  · split at h
    · exact List.getElem?_mem h
    · exact absurd h (by simp)

theorem pyNegIdx_id {events : List Event} (hwp : wellPlaced events) {cur : Nat} {ev : Event}
    (h0 : cur ≠ 0) (h : pyNegIdx events cur = some ev) : ev.id = cur := by
  unfold pyNegIdx at h
  rw [if_neg h0] at h
  by_cases hle : cur ≤ events.length
  · rw [if_pos hle] at h
    have hlt : events.length - cur < events.length := by omega
    have hwpi := hwp (events.length - cur) hlt
    rw [List.getElem?_eq_getElem hlt] at h
    simp only [Option.some.injEq] at h
    subst h
    omega
  · rw [if_neg hle] at h
    cases h

theorem head_id {events : List Event} {e0 : Event} (hwp : wellPlaced events)
    (hhead : events.head? = some e0) : e0.id = events.length := by
  cases events with
  | nil => cases hhead
  | cons a t =>
    simp only [List.head?_cons, Option.some.injEq] at hhead
    subst hhead
    have := hwp 0 (by simp)
    simpa using this

theorem parse_eq_walk {events : List Event} {e0 : Event} {fd : ExecutionFailedDetails}
    (hwp : wellPlaced events)
    (hhead : events.head? = some e0) (htype : e0.type = "ExecutionFailed")
    (hdet : e0.executionFailedEventDetails = some fd)
    (herr : fd.error ≠ "States.Runtime") :
    parse_failure_history events =
      walk events (2 * events.length + 1) false e0.previousEventId := by
  have hid := head_id hwp hhead
  have hlen : 0 < events.length := by
    cases events
    · cases hhead
    · simp
  have h0 : e0.id ≠ 0 := by omega
  have hpy : pyNegIdx events e0.id = some e0 := by
    unfold pyNegIdx
    rw [if_neg h0, if_pos (by omega)]
    rw [hid, Nat.sub_self, ← List.head?_eq_getElem?]
    exact hhead
  have hc1 : ¬(e0.type = "TaskStateEntered" ∧ nextFlag false e0 = false) := by
    rw [htype]
    rintro ⟨h, -⟩
    exact absurd h (by decide)
  have hc2 : ¬(e0.type = "ParallelStateEntered" ∧ nextFlag false e0 = true) := by
    rw [htype]
    rintro ⟨h, -⟩
    exact absurd h (by decide)
  have hnf : nextFlag false e0 = false := by
    unfold nextFlag
    rw [htype]
    decide
  simp only [parse_failure_history, hhead, hdet, if_neg herr]
  show walk events (2 * events.length + 1 + 1) false e0.id = _
  rw [walk_succ_skip h0 hpy hc1 hc2, hnf]

theorem walk_FirstTSE {events : List Event} (hwp : wellPlaced events) (hprev : prevLtId events)
    {cur : Nat} {d : StateEnteredDetails} (hft : FirstTSE events cur d) :
    ∀ fuel : Nat, cur < fuel →
      walk events fuel false cur = Except.ok (some (d.name, d.input)) := by
  induction hft with
  | hit cur ev d h0 hev htype hd =>
    intro fuel hlt
    obtain ⟨f, rfl⟩ : ∃ f, fuel = f + 1 := ⟨fuel - 1, by omega⟩
    have hc1 : ev.type = "TaskStateEntered" ∧ nextFlag false ev = false := by
      refine ⟨htype, ?_⟩
      unfold nextFlag
      rw [htype]
      decide
    simp only [walk, if_neg h0, hev, if_pos hc1, hd]
  | skip cur ev d h0 hev hTSE hPSF hrec ih =>
    intro fuel hlt
    obtain ⟨f, rfl⟩ : ∃ f, fuel = f + 1 := ⟨fuel - 1, by omega⟩
    have hnf : nextFlag false ev = false := by
      unfold nextFlag
      rw [if_neg hPSF]
    have hc1 : ¬(ev.type = "TaskStateEntered" ∧ nextFlag false ev = false) := by
      rintro ⟨h, -⟩
      exact hTSE h
    have hc2 : ¬(ev.type = "ParallelStateEntered" ∧ nextFlag false ev = true) := by
      rintro ⟨-, h⟩
      rw [hnf] at h
      cases h
    have hid : ev.id = cur := pyNegIdx_id hwp h0 hev
    have hlt2 : ev.previousEventId < f := by
      have := hprev ev (pyNegIdx_mem hev)
      omega
    rw [walk_succ_skip h0 hev hc1 hc2, hnf]
    exact ih f hlt2

theorem walk_ParallelPSE {events : List Event} (hwp : wellPlaced events)
    (hprev : prevLtId events)
    {cur : Nat} {d : StateEnteredDetails} (hp : ParallelPSE events cur d) :
    ∀ fuel : Nat, cur < fuel →
      walk events fuel true cur = Except.ok (some (d.name, d.input)) := by
  induction hp with
  | hit cur ev d h0 hev htype hd =>
    intro fuel hlt
    obtain ⟨f, rfl⟩ : ∃ f, fuel = f + 1 := ⟨fuel - 1, by omega⟩
    have hnf : nextFlag true ev = true := by
      unfold nextFlag
      split <;> rfl
    have hc1 : ¬(ev.type = "TaskStateEntered" ∧ nextFlag true ev = false) := by
      rintro ⟨-, h⟩
      rw [hnf] at h
      cases h
    have hc2 : ev.type = "ParallelStateEntered" ∧ nextFlag true ev = true := ⟨htype, hnf⟩
    simp only [walk, if_neg h0, hev, if_neg hc1, if_pos hc2, hd]
  | skip cur ev d h0 hev htype hrec ih =>
    intro fuel hlt
    obtain ⟨f, rfl⟩ : ∃ f, fuel = f + 1 := ⟨fuel - 1, by omega⟩
    have hnf : nextFlag true ev = true := by
      unfold nextFlag
      split <;> rfl
    have hc1 : ¬(ev.type = "TaskStateEntered" ∧ nextFlag true ev = false) := by
      rintro ⟨-, h⟩
      rw [hnf] at h
      cases h
    have hc2 : ¬(ev.type = "ParallelStateEntered" ∧ nextFlag true ev = true) := by
      rintro ⟨h, -⟩
      exact htype h
    have hid : ev.id = cur := pyNegIdx_id hwp h0 hev
    have hlt2 : ev.previousEventId < f := by
      have := hprev ev (pyNegIdx_mem hev)
      omega
    rw [walk_succ_skip h0 hev hc1 hc2, hnf]
    exact ih f hlt2

theorem walk_FailedParallel {events : List Event} (hwp : wellPlaced events)
    (hprev : prevLtId events)
    {cur : Nat} {d : StateEnteredDetails} (hfp : FailedParallel events cur d) :
    ∀ fuel : Nat, cur < fuel →
      walk events fuel false cur = Except.ok (some (d.name, d.input)) := by
  induction hfp with
  | found cur ev d h0 hev htype hrec =>
    intro fuel hlt
    obtain ⟨f, rfl⟩ : ∃ f, fuel = f + 1 := ⟨fuel - 1, by omega⟩
    have hnf : nextFlag false ev = true := by
      unfold nextFlag
      rw [if_pos htype]
    have hc1 : ¬(ev.type = "TaskStateEntered" ∧ nextFlag false ev = false) := by
      rintro ⟨-, h⟩
      rw [hnf] at h
      cases h
    have hc2 : ¬(ev.type = "ParallelStateEntered" ∧ nextFlag false ev = true) := by
      rintro ⟨h, -⟩
      rw [htype] at h
      exact absurd h (by decide)
    have hid : ev.id = cur := pyNegIdx_id hwp h0 hev
    have hlt2 : ev.previousEventId < f := by
      have := hprev ev (pyNegIdx_mem hev)
      omega
    rw [walk_succ_skip h0 hev hc1 hc2, hnf]
    exact walk_ParallelPSE hwp hprev hrec f hlt2
  | skip cur ev d h0 hev hPSF hTSE hrec ih =>
    intro fuel hlt
    obtain ⟨f, rfl⟩ : ∃ f, fuel = f + 1 := ⟨fuel - 1, by omega⟩
    have hnf : nextFlag false ev = false := by
      unfold nextFlag
      rw [if_neg hPSF]
    have hc1 : ¬(ev.type = "TaskStateEntered" ∧ nextFlag false ev = false) := by
      rintro ⟨h, -⟩
      exact hTSE h
    have hc2 : ¬(ev.type = "ParallelStateEntered" ∧ nextFlag false ev = true) := by
      rintro ⟨-, h⟩
      rw [hnf] at h
      cases h
    have hid : ev.id = cur := pyNegIdx_id hwp h0 hev
    have hlt2 : ev.previousEventId < f := by
      have := hprev ev (pyNegIdx_mem hev)
      omega
    rw [walk_succ_skip h0 hev hc1 hc2, hnf]
    exact ih f hlt2

theorem walk_ReachesZero {events : List Event} (hwp : wellPlaced events)
    (hprev : prevLtId events)
    {flag : Bool} {cur : Nat} (hr : ReachesZero events flag cur) :
    ∀ fuel : Nat, cur < fuel → walk events fuel flag cur = Except.ok none := by
  induction hr with
  | done flag =>
    intro fuel hlt
    obtain ⟨f, rfl⟩ : ∃ f, fuel = f + 1 := ⟨fuel - 1, by omega⟩
    simp [walk]
  | step flag cur ev flag1 h0 hev hflag hTSE hPSE hrec ih =>
    intro fuel hlt
    obtain ⟨f, rfl⟩ : ∃ f, fuel = f + 1 := ⟨fuel - 1, by omega⟩
    have hid : ev.id = cur := pyNegIdx_id hwp h0 hev
    have hlt2 : ev.previousEventId < f := by
      have := hprev ev (pyNegIdx_mem hev)
      omega
    rw [hflag] at hTSE hPSE
    rw [walk_succ_skip h0 hev hTSE hPSE, ← hflag]
    exact ih f hlt2

theorem walk_ne_fuelExhausted {events : List Event} (hwp : wellPlaced events)
    (hprev : prevLtId events) :
    ∀ (fuel : Nat) (flag : Bool) (cur : Nat), cur < fuel →
      walk events fuel flag cur ≠ Except.error PyErr.fuelExhausted := by
  intro fuel
  induction fuel with
  | zero =>
    intro flag cur h
    omega
  | succ f ih =>
    intro flag cur hlt
    by_cases h0 : cur = 0
    · subst h0
      simp [walk]
    · cases hev : pyNegIdx events cur with
      | none => simp [walk, if_neg h0, hev]
      | some ev =>
        by_cases hc1 : ev.type = "TaskStateEntered" ∧ nextFlag flag ev = false
        · cases hd : ev.stateEnteredEventDetails <;>
            simp [walk, if_neg h0, hev, if_pos hc1, hd]
        · by_cases hc2 : ev.type = "ParallelStateEntered" ∧ nextFlag flag ev = true
          · cases hd : ev.stateEnteredEventDetails <;>
              simp [walk, if_neg h0, hev, if_neg hc1, if_pos hc2, hd]
          · have hid : ev.id = cur := pyNegIdx_id hwp h0 hev
            have hlt2 : ev.previousEventId < f := by
              have := hprev ev (pyNegIdx_mem hev)
              omega
            rw [walk_succ_skip h0 hev hc1 hc2]
            exact ih (nextFlag flag ev) ev.previousEventId hlt2

theorem lookup_map_update_self (m : List (String × StateRecord)) (k : String) (v : StateRecord)
    (h : (m.lookup k).isSome) :
    (m.map (fun p => if p.1 = k then (k, v) else p)).lookup k = some v := by
  induction m with
  | nil => simp at h
  | cons p t ih =>
    obtain ⟨a, b⟩ := p
    by_cases hp : a = k
    · subst hp
      simp [List.lookup_cons]
    · have hka : (k == a) = false := beq_eq_false_iff_ne.mpr (Ne.symm hp)
      simp only [List.lookup_cons, hka] at h
      simp only [List.map_cons, if_neg hp, List.lookup_cons, hka]
      exact ih h

theorem map_update_of_lookup_none (m : List (String × StateRecord)) (k : String)
    (v : StateRecord) (h : m.lookup k = none) :
    m.map (fun p => if p.1 = k then (k, v) else p) = m := by
  induction m with
  | nil => rfl
  | cons p t ih =>
    obtain ⟨a, b⟩ := p
    by_cases hp : a = k
    · subst hp
      simp [List.lookup_cons] at h
    · have hka : (k == a) = false := beq_eq_false_iff_ne.mpr (Ne.symm hp)
      simp only [List.lookup_cons, hka] at h
      simp only [List.map_cons, if_neg hp, ih h]

theorem lookup_append_single_self (m : List (String × StateRecord)) (k : String)
    (v : StateRecord) (h : m.lookup k = none) :
    (m ++ [(k, v)]).lookup k = some v := by
  rw [List.lookup_append, h, Option.none_or]
  simp

theorem lookup_append_single_ne (m : List (String × StateRecord)) (k k' : String)
    (v : StateRecord) (h : k' ≠ k) :
    (m ++ [(k, v)]).lookup k' = m.lookup k' := by
  rw [List.lookup_append]
  have hka : (k' == k) = false := beq_eq_false_iff_ne.mpr h
  simp [List.lookup_cons, hka]

theorem lookup_dictInsert_self (m : List (String × StateRecord)) (k : String)
    (v : StateRecord) : (dictInsert m k v).lookup k = some v := by
  unfold dictInsert
  by_cases h : (m.lookup k).isSome
  · rw [if_pos h]
    exact lookup_map_update_self m k v h
  · rw [if_neg h]
    exact lookup_append_single_self m k v (Option.not_isSome_iff_eq_none.mp h)

theorem mem_of_head? {events : List Event} {e0 : Event}
    (hhead : events.head? = some e0) : e0 ∈ events := by
  cases events with
  | nil => cases hhead
  | cons a t =>
    simp only [List.head?_cons, Option.some.injEq] at hhead
    subst hhead
    exact List.mem_cons_self a t

theorem c1Chain : FirstTSE c1Log 3 ⟨"Validate", "\x7b\"x\": 1\x7d"⟩ :=
  FirstTSE.hit 3 ⟨3, "TaskStateEntered", 2, some ⟨"Validate", "\x7b\"x\": 1\x7d"⟩, none⟩
    ⟨"Validate", "\x7b\"x\": 1\x7d"⟩ (by decide) rfl rfl rfl

theorem c2Chain : FailedParallel c2Log 5 ⟨"Par", "pin"⟩ :=
  FailedParallel.found 5 ⟨5, "ParallelStateFailed", 4, none, none⟩ ⟨"Par", "pin"⟩
    (by decide) rfl rfl
    (ParallelPSE.skip 4 ⟨4, "TaskStateEntered", 3, some ⟨"InnerB", "ib"⟩, none⟩ ⟨"Par", "pin"⟩
      (by decide) rfl (by decide)
      (ParallelPSE.skip 3 ⟨3, "TaskStateEntered", 2, some ⟨"InnerA", "ia"⟩, none⟩ ⟨"Par", "pin"⟩
        (by decide) rfl (by decide)
        (ParallelPSE.hit 2 ⟨2, "ParallelStateEntered", 1, some ⟨"Par", "pin"⟩, none⟩
          ⟨"Par", "pin"⟩ (by decide) rfl rfl rfl)))

theorem c3Chain : ReachesZero c3Log false 1 :=
  ReachesZero.step false 1 ⟨1, "PassStateExited", 0, none, none⟩ false
    (by decide) rfl rfl (by decide) (by decide) (ReachesZero.done false)

/-! ## Claim theorems -/

/-- C1: for an event log representing a flat (non-parallel) single-task
failure — a well-placed log with a well-founded predecessor chain whose
first event is `ExecutionFailed` with error other than `States.Runtime`,
such that the chain from that event's `previousEventId` reaches a
`TaskStateEntered` event with details `d` before any `ParallelStateFailed`
event — `parse_failure_history` returns the name and input from the
`stateEnteredEventDetails` of that chronologically nearest
`TaskStateEntered` event. -/
theorem C1_flat_task_failure (events : List Event) (e0 : Event)
    (fd : ExecutionFailedDetails) (d : StateEnteredDetails)
    (hwp : wellPlaced events) (hprev : prevLtId events)
    (hhead : events.head? = some e0) (htype : e0.type = "ExecutionFailed")
    (hdet : e0.executionFailedEventDetails = some fd)
    (herr : fd.error ≠ "States.Runtime")
    (hchain : FirstTSE events e0.previousEventId d) :
    parse_failure_history events = Except.ok (some (d.name, d.input)) := by
  rw [parse_eq_walk hwp hhead htype hdet herr]
  apply walk_FirstTSE hwp hprev hchain
  have hid := head_id hwp hhead
  have hp := hprev e0 (mem_of_head? hhead)
  omega

/-- Witness for C1: the spec's end-to-end example log with chain
4 → 3 → 2 → 1 → 0 yields `("Validate", \x7b"x": 1\x7d)`. -/
theorem C1_flat_task_failure_witness :
    wellPlaced c1Log ∧ prevLtId c1Log ∧
      FirstTSE c1Log 3 ⟨"Validate", "\x7b\"x\": 1\x7d"⟩ ∧
      parse_failure_history c1Log = Except.ok (some ("Validate", "\x7b\"x\": 1\x7d")) :=
  ⟨by decide, by decide, c1Chain,
    C1_flat_task_failure c1Log ⟨4, "ExecutionFailed", 3, none, some ⟨"States.TaskFailed", "boom"⟩⟩
      ⟨"States.TaskFailed", "boom"⟩ ⟨"Validate", "\x7b\"x\": 1\x7d"⟩
      (by decide) (by decide) rfl rfl rfl (by decide) c1Chain⟩

/-- C2: for an event log representing a failure inside a parallel branch —
the backward walk meets a `ParallelStateFailed` event before any
`TaskStateEntered` event, and from there reaches the enclosing
`ParallelStateEntered` event with details `d`, with any number of
inner-branch events in between — `parse_failure_history` returns the
enclosing `ParallelStateEntered` event's name and input, never that of an
inner branch state. -/
theorem C2_parallel_failure (events : List Event) (e0 : Event)
    (fd : ExecutionFailedDetails) (d : StateEnteredDetails)
    (hwp : wellPlaced events) (hprev : prevLtId events)
    (hhead : events.head? = some e0) (htype : e0.type = "ExecutionFailed")
    (hdet : e0.executionFailedEventDetails = some fd)
    (herr : fd.error ≠ "States.Runtime")
    (hchain : FailedParallel events e0.previousEventId d) :
    parse_failure_history events = Except.ok (some (d.name, d.input)) := by
  rw [parse_eq_walk hwp hhead htype hdet herr]
  apply walk_FailedParallel hwp hprev hchain
  have hid := head_id hwp hhead
  have hp := hprev e0 (mem_of_head? hhead)
  omega

/-- Witness for C2: on `c2Log`, two inner `TaskStateEntered` events lie
between the `ParallelStateFailed` event and the enclosing
`ParallelStateEntered` event `Par`, and the result is `("Par", "pin")`. -/
theorem C2_parallel_failure_witness :
    wellPlaced c2Log ∧ prevLtId c2Log ∧
      FailedParallel c2Log 5 ⟨"Par", "pin"⟩ ∧
      parse_failure_history c2Log = Except.ok (some ("Par", "pin")) :=
  ⟨by decide, by decide, c2Chain,
    C2_parallel_failure c2Log ⟨6, "ExecutionFailed", 5, none, some ⟨"States.TaskFailed", "boom"⟩⟩
      ⟨"States.TaskFailed", "boom"⟩ ⟨"Par", "pin"⟩
      (by decide) (by decide) rfl rfl rfl (by decide) c2Chain⟩

/-- C3 counterexample: on `c3Log` — first event `ExecutionFailed` with
error other than `States.Runtime`, and a walk that reaches id 0 without
matching any termination condition — `parse_failure_history` returns the
empty result `Except.ok none` (the Python function falls off the end of the
loop and implicitly returns `None`); it does not raise any error, so the
claimed `NoFailedStateFound` failure does not occur. -/
theorem C3_counterexample :
    wellPlaced c3Log ∧ prevLtId c3Log ∧
      parse_failure_history c3Log = Except.ok none :=
  ⟨by decide, by decide, rfl⟩

/-- C3 (amended): when the backward walk from the `ExecutionFailed` event's
`previousEventId` reaches id 0 without satisfying a termination condition,
`parse_failure_history` returns `Except.ok none` — Python's implicit
`return None` — rather than raising a dedicated `NoFailedStateFound`
error (and rather than returning any default state name). -/
theorem C3_no_match_returns_none (events : List Event) (e0 : Event)
    (fd : ExecutionFailedDetails)
    (hwp : wellPlaced events) (hprev : prevLtId events)
    (hhead : events.head? = some e0) (htype : e0.type = "ExecutionFailed")
    (hdet : e0.executionFailedEventDetails = some fd)
    (herr : fd.error ≠ "States.Runtime")
    (hchain : ReachesZero events false e0.previousEventId) :
    parse_failure_history events = Except.ok none := by
  rw [parse_eq_walk hwp hhead htype hdet herr]
  apply walk_ReachesZero hwp hprev hchain
  have hid := head_id hwp hhead
  have hp := hprev e0 (mem_of_head? hhead)
  omega

/-- Witness for the amended C3 at `c3Log`. -/
theorem C3_no_match_returns_none_witness :
    wellPlaced c3Log ∧ prevLtId c3Log ∧ ReachesZero c3Log false 1 ∧
      parse_failure_history c3Log = Except.ok none :=
  ⟨by decide, by decide, c3Chain,
    C3_no_match_returns_none c3Log ⟨2, "ExecutionFailed", 1, none, some ⟨"States.TaskFailed", "boom"⟩⟩
      ⟨"States.TaskFailed", "boom"⟩
      (by decide) (by decide) rfl rfl rfl (by decide) c3Chain⟩

/-- C4 counterexample: grafting twice in sequence does not fail with any
`NameCollision` signal; the second graft silently overwrites the
`GoToState` entry produced by the first (the overwritten value differs from
the original one). -/
theorem C4_counterexample :
    (attach_go_to_state "B" c4Machine).states.lookup "GoToState" =
        some (go_to_state "A" "B") ∧
      attach_go_to_state "B" (attach_go_to_state "B" c4Machine) =
        ⟨"GoToState",
          [("A", StateRecord.otherState "Abody"), ("GoToState", go_to_state "GoToState" "B")],
          "meta"⟩ ∧
      go_to_state "GoToState" "B" ≠ go_to_state "A" "B" :=
  ⟨rfl, rfl, by decide⟩

/-- C4 (amended): `attach_go_to_state` performs no collision check: applied
to a definition whose states mapping already contains the reserved name
`GoToState` (in particular its own prior output), it succeeds and silently
overwrites the existing entry with the newly built choice state — there is
no `NameCollision` error. -/
theorem C4_overwrites_existing (m : StateMachine) (f : String)
    (h : (m.states.lookup "GoToState").isSome) :
    attach_go_to_state f m =
      ⟨"GoToState",
        m.states.map
          (fun p => if p.1 = "GoToState" then ("GoToState", go_to_state m.startAt f) else p),
        m.rest⟩ ∧
    (attach_go_to_state f m).states.lookup "GoToState" =
      some (go_to_state m.startAt f) := by
  constructor
  · simp only [attach_go_to_state, dictInsert, if_pos h]
  · exact lookup_dictInsert_self m.states "GoToState" (go_to_state m.startAt f)

/-- Witness for the amended C4: a second graft on a grafted machine
overwrites `GoToState`, pointing its non-resume branch at `GoToState`
itself. -/
theorem C4_overwrites_existing_witness :
    ((attach_go_to_state "B" c4Machine).states.lookup "GoToState").isSome ∧
      (attach_go_to_state "C" (attach_go_to_state "B" c4Machine)).states.lookup "GoToState" =
        some (go_to_state "GoToState" "C") :=
  ⟨by decide, (C4_overwrites_existing (attach_go_to_state "B" c4Machine) "C" (by decide)).2⟩

/-- C5: for an event log whose first event is `ExecutionFailed` with error
`States.Runtime` and whose cause's 14th whitespace-separated token carries
digits forming the integer `k` with `1 ≤ k ≤ N`, `parse_failure_history`
bypasses the backward traversal and returns the name and input of the
`stateEnteredEventDetails` of the event at reverse-chronological log
position `N - k` (index `-k` of the most-recent-first array). -/
theorem C5_runtime_fast_path (events : List Event) (e0 ev : Event)
    (fd : ExecutionFailedDetails) (tok : String) (k : Nat) (d : StateEnteredDetails)
    (hhead : events.head? = some e0)
    (hdet : e0.executionFailedEventDetails = some fd)
    (herr : fd.error = "States.Runtime")
    (htok : (pySplitWs fd.cause)[13]? = some tok)
    (hk : intOfDigits tok = some k)
    (hk1 : 1 ≤ k) (hkN : k ≤ events.length)
    (hev : events[events.length - k]? = some ev)
    (hd : ev.stateEnteredEventDetails = some d) :
    parse_failure_history events = Except.ok (some (d.name, d.input)) := by
  have hpy : pyNegIdx events k = some ev := by
    unfold pyNegIdx
    rw [if_neg (by omega), if_pos hkN]
    exact hev
  simp only [parse_failure_history, hhead, hdet, if_pos herr, htok, hk, hpy, hd]

/-- Witness for C5 at `c5Log`: the cause's token 13 is `1.`, whose digits
read as `1`, selecting the state-entered event at position `2 - 1`. -/
theorem C5_runtime_fast_path_witness :
    1 ≤ 1 ∧ 1 ≤ c5Log.length ∧
      parse_failure_history c5Log = Except.ok (some ("CrossRegionCall", "in1")) :=
  ⟨by decide, by decide,
    C5_runtime_fast_path c5Log
      ⟨2, "ExecutionFailed", 1, none,
        some ⟨"States.Runtime",
          "An error occurred while executing the state whose processed event id is w1 1. extra"⟩⟩
      ⟨1, "TaskStateEntered", 0, some ⟨"CrossRegionCall", "in1"⟩, none⟩
      ⟨"States.Runtime",
        "An error occurred while executing the state whose processed event id is w1 1. extra"⟩
      "1." 1 ⟨"CrossRegionCall", "in1"⟩
      rfl rfl rfl rfl rfl (by decide) (by decide) rfl rfl⟩

/-- C6: for every workflow definition with start state `S` and every target
state name `T`, `attach_go_to_state` produces a definition whose `StartAt`
is `GoToState`, whose added state is exactly a Choice state with the single
choice `Variable $.resuming, BooleanEquals false, Next S` and `Default T`;
under the (spec-modelled) Choice dispatch, the original start is selected
only when the input field `resuming` is present and equals `false`, and the
`Default` branch to `T` fires in every other case, including when
`resuming` is absent; the spec's concrete grafting example also holds
exactly. -/
theorem C6_graft_structure (m : StateMachine) (T : String) :
    (attach_go_to_state T m).startAt = "GoToState" ∧
    (attach_go_to_state T m).states.lookup "GoToState" =
      some (StateRecord.choiceState
        [{ Variable := "$.resuming", BooleanEquals := false, Next := m.startAt }] T) ∧
    (∀ input : String → Option Bool,
      choiceStateNext (go_to_state m.startAt T) input =
        some (if input "$.resuming" = some false then m.startAt else T)) ∧
    attach_go_to_state "B" exMachine =
      ⟨"GoToState",
        [("A", StateRecord.otherState "Abody"), ("B", StateRecord.otherState "Bbody"),
         ("GoToState", StateRecord.choiceState
           [{ Variable := "$.resuming", BooleanEquals := false, Next := "A" }] "B")],
        "meta"⟩ := by
  refine ⟨rfl, ?_, ?_, rfl⟩
  · exact lookup_dictInsert_self m.states "GoToState" (go_to_state m.startAt T)
  · intro input
    by_cases h : input "$.resuming" = some false
    · have hb : (input "$.resuming" == some false) = true := beq_iff_eq.mpr h
      simp [choiceStateNext, go_to_state, choiceNext, List.find?, hb, h]
    · have hb : (input "$.resuming" == some false) = false := beq_eq_false_iff_ne.mpr h
      simp [choiceStateNext, go_to_state, choiceNext, List.find?, hb, h]

/-- C7: for every workflow definition not containing the reserved name,
`attach_go_to_state` leaves every pre-existing entry of the states mapping
untouched (the new states list is exactly the old one with a single entry
appended), preserves every other top-level component, changes only
`startAt`, and adds exactly one state entry. -/
theorem C7_frame (m : StateMachine) (f : String)
    (h : m.states.lookup "GoToState" = none) :
    attach_go_to_state f m =
      ⟨"GoToState", m.states ++ [("GoToState", go_to_state m.startAt f)], m.rest⟩ ∧
    (∀ k : String, k ≠ "GoToState" →
      (attach_go_to_state f m).states.lookup k = m.states.lookup k) ∧
    (attach_go_to_state f m).states.length = m.states.length + 1 := by
  have hins : dictInsert m.states "GoToState" (go_to_state m.startAt f) =
      m.states ++ [("GoToState", go_to_state m.startAt f)] := by
    unfold dictInsert
    rw [h]
    simp
  refine ⟨?_, ?_, ?_⟩
  · simp only [attach_go_to_state, hins]
  · intro k hk
    simp only [attach_go_to_state, hins]
    exact lookup_append_single_ne m.states "GoToState" k (go_to_state m.startAt f) hk
  · simp only [attach_go_to_state, hins]
    simp

/-- Witness for C7 at the spec's example definition. -/
theorem C7_frame_witness :
    exMachine.states.lookup "GoToState" = none ∧
      attach_go_to_state "B" exMachine =
        ⟨"GoToState", exMachine.states ++ [("GoToState", go_to_state "A" "B")], "meta"⟩ :=
  ⟨rfl, (C7_frame exMachine "B" rfl).1⟩

/-- C8: for every event log whose first (most recent) event is not an
`ExecutionFailed` event — so by the data-model invariant it carries no
`executionFailedEventDetails` — `parse_failure_history` fails with the
`Execution did not fail` error (`notFailedExecution`), performing no
traversal. -/
theorem C8_not_failed_execution (events : List Event) (e0 : Event)
    (hinv : detailsOnlyOnFailed events)
    (hhead : events.head? = some e0)
    (htype : e0.type ≠ "ExecutionFailed") :
    parse_failure_history events = Except.error PyErr.notFailedExecution := by
  have hdet : e0.executionFailedEventDetails = none := hinv e0 (mem_of_head? hhead) htype
  simp only [parse_failure_history, hhead, hdet]

/-- Witness for C8 at `c8Log`, whose first event is `ExecutionSucceeded`. -/
theorem C8_not_failed_execution_witness :
    detailsOnlyOnFailed c8Log ∧
      parse_failure_history c8Log = Except.error PyErr.notFailedExecution :=
  ⟨by decide,
    C8_not_failed_execution c8Log ⟨2, "ExecutionSucceeded", 1, none, none⟩
      (by decide) rfl (by decide)⟩

/-- C9: for every execution ARN whose colon-split has at least seven
segments, `sm_arn_from_execution_arn` drops the final segment, replaces the
segment at index 5 with the literal `stateMachine`, and rejoins with
colons; every other segment is unchanged. -/
theorem C9_sm_arn (arn : String)
    (h : 7 ≤ (pySplitColon arn).length) :
    sm_arn_from_execution_arn arn =
      some (joinColon (((pySplitColon arn).dropLast).set 5 "stateMachine")) ∧
    (((pySplitColon arn).dropLast).set 5 "stateMachine")[5]? = some "stateMachine" ∧
    (∀ i : Nat, i ≠ 5 →
      (((pySplitColon arn).dropLast).set 5 "stateMachine")[i]? =
        ((pySplitColon arn).dropLast)[i]?) := by
  have hlen : 5 < ((pySplitColon arn).dropLast).length := by
    rw [List.length_dropLast]
    omega
  refine ⟨?_, ?_, ?_⟩
  · unfold sm_arn_from_execution_arn
    rw [if_pos hlen]
  · exact List.getElem?_set_self hlen
  · intro i hi
    exact List.getElem?_set_ne (Ne.symm hi)

/-- Witness for C9 at a concrete execution ARN with eight segments. -/
theorem C9_sm_arn_witness :
    7 ≤ (pySplitColon "arn:aws:states:us-east-1:123456789012:execution:MyMachine:run1").length ∧
      sm_arn_from_execution_arn "arn:aws:states:us-east-1:123456789012:execution:MyMachine:run1" =
        some "arn:aws:states:us-east-1:123456789012:stateMachine:MyMachine" := by
  refine ⟨by decide, ?_⟩
  rw [(C9_sm_arn "arn:aws:states:us-east-1:123456789012:execution:MyMachine:run1" (by decide)).1]
  rfl

/-- C10 counterexample: `c10Log` satisfies the claim's precondition (every
event's `previousEventId` is strictly below its own id), but the backward
traversal does not terminate — the embedded walk exhausts its fuel, which
happens exactly when the Python loop diverges (the cursor sticks at 2,
because the event stored at reverse position 2 has id 9 and predecessor 2).
Well-foundedness of `previousEventId` alone is therefore not sufficient. -/
theorem C10_counterexample :
    prevLtId c10Log ∧
      parse_failure_history c10Log = Except.error PyErr.fuelExhausted :=
  ⟨by decide, rfl⟩

/-- C10 (amended): the backward traversal terminates for every event log
that is well-placed (the event at reverse index `k` has id `k`) and in
which every event's `previousEventId` is strictly below its own id; under
these preconditions the cursor strictly decreases each iteration, the fuel
of the embedded walk is never exhausted, and `parse_failure_history` is a
total function. -/
theorem C10_traversal_terminates (events : List Event)
    (hwp : wellPlaced events) (hprev : prevLtId events) :
    parse_failure_history events ≠ Except.error PyErr.fuelExhausted := by
  cases hhead : events.head? with
  | none => simp [parse_failure_history, hhead]
  | some e0 =>
    cases hdet : e0.executionFailedEventDetails with
    | none => simp [parse_failure_history, hhead, hdet]
    | some fd =>
      by_cases herr : fd.error = "States.Runtime"
      · cases htok : (pySplitWs fd.cause)[13]? with
        | none => simp [parse_failure_history, hhead, hdet, herr, htok]
        | some tok =>
          cases hk : intOfDigits tok with
          | none => simp [parse_failure_history, hhead, hdet, herr, htok, hk]
          | some k =>
            cases hev : pyNegIdx events k with
            | none => simp [parse_failure_history, hhead, hdet, herr, htok, hk, hev]
            | some ev =>
              cases hd : ev.stateEnteredEventDetails with
              | none => simp [parse_failure_history, hhead, hdet, herr, htok, hk, hev, hd]
              | some d => simp [parse_failure_history, hhead, hdet, herr, htok, hk, hev, hd]
      · have hid := head_id hwp hhead
        have hne := walk_ne_fuelExhausted hwp hprev
          (2 * events.length + 2) false e0.id (by omega)
        simpa [parse_failure_history, hhead, hdet, herr] using hne

/-- Witness for the amended C10 at the spec's example log. -/
theorem C10_traversal_terminates_witness :
    wellPlaced c1Log ∧ prevLtId c1Log ∧
      parse_failure_history c1Log ≠ Except.error PyErr.fuelExhausted :=
  ⟨by decide, by decide, C10_traversal_terminates c1Log (by decide) (by decide)⟩
